import Mathlib

/-! Build-result reconciliation of `buildpack/build.go` and `buildpack/metadata.go`.

A shallow embedding of the build step of one buildpack: the launch-process
checks, the unmet-requirement check, the BOM entry conversion, the layer
metadata codec, the layer directory rename, the build command and the
reading of the output files.

Go values are embedded as follows.
* A slice that a function mutates in place is returned as a new list.
* The logger is the list of messages written to it.
* An `error` is `Option String` (`none` is `nil`) or the error side of `Except`.
* The filesystem is an explicit state: a table from resolved paths to nodes,
  read through the path resolution of the kernel (`ENOENT`, `ENOTDIR`,
  `ENAMETOOLONG`).
* Functions of the package that are declared outside these two files
  (`ValidateBOM`, `processBOMFiles`, `Plan.toBOM`, `Plan.filter`) and the
  outcome of running the build command are parameters.
-/

namespace Buildpack

/-! ## Buildpack API versions (package `api`) -/

/-- A parsed buildpack API version `major.minor`, the value that
`api.MustParse` yields for a well-formed version string. -/
structure Version where
  major : Nat
  minor : Nat
  deriving DecidableEq, Repr

namespace Version

/-- Three-way comparison of `api.Version.Compare`: the major numbers decide,
the minor numbers break the tie. -/
def Compare (v o : Version) : Int :=
  if v.major ≠ o.major then
    (if v.major < o.major then -1 else 1)
  else if v.minor ≠ o.minor then
    (if v.minor < o.minor then -1 else 1)
  else 0

/-- The method `api.Version.LessThan`. -/
def LessThan (v o : Version) : Bool := decide (v.Compare o < 0)

/-- The method `api.Version.AtLeast`. -/
def AtLeast (v o : Version) : Bool := decide (v.Compare o ≥ 0)

/-- The method `api.Version.Equal`. -/
def Equal (v o : Version) : Bool := decide (v.Compare o = 0)

end Version

/-- API version `0.2`. -/
def api02 : Version := ⟨0, 2⟩
/-- API version `0.5`. -/
def api05 : Version := ⟨0, 5⟩
/-- API version `0.6`. -/
def api06 : Version := ⟨0, 6⟩

/-! ## Launch processes -/

/-- The fields of `launch.Process`. -/
structure Process where
  Typ : String
  Command : String
  Args : List String
  Direct : Bool
  Default : Bool
  BuildpackID : String
  deriving DecidableEq, Repr

/-- The text of the warning of `overrideDefaultForOldBuildpacks`. -/
def overrideWarning (replacedDefaults : List String) : String :=
  "Warning: default processes aren't supported in this buildpack api version. Overriding the default value to false for the following processes: ["
    ++ ", ".intercalate replacedDefaults ++ "]"

/-- The loop of `overrideDefaultForOldBuildpacks`: `replacedDefaults` collects
the types of the processes whose flag was set, each flag is cleared. -/
def overrideLoop : List Process → List String → List Process × List String
  | [], replacedDefaults => ([], replacedDefaults)
  | p :: ps, replacedDefaults =>
    let replaced1 := if p.Default then replacedDefaults ++ [p.Typ] else replacedDefaults
    let rest := overrideLoop ps replaced1
    ({ p with Default := false } :: rest.1, rest.2)

/-- Outcome of `overrideDefaultForOldBuildpacks`: the process slice after the
call, the warnings written to the logger, and the returned error. -/
structure OverrideResult where
  processes : List Process
  warnings : List String
  err : Option String
  deriving DecidableEq, Repr

/-- The function `overrideDefaultForOldBuildpacks`. -/
def overrideDefaultForOldBuildpacks (processes : List Process) (bpAPI : Version) :
    OverrideResult :=
  if bpAPI.AtLeast api06 then
    { processes := processes, warnings := [], err := none }
  else
    let r := overrideLoop processes []
    if r.2.length > 0 then
      { processes := r.1, warnings := [overrideWarning r.2], err := none }
    else
      { processes := r.1, warnings := [], err := none }

/-- The error of `validateNoMultipleDefaults`. -/
def errMultipleDefaults : String := "multiple default process types aren't allowed"

/-- The loop of `validateNoMultipleDefaults`, with the variable `defaultType`. -/
def validateNoMultipleDefaultsLoop : List Process → String → Option String
  | [], _ => none
  | p :: ps, defaultType =>
    if p.Default && defaultType != "" then some errMultipleDefaults
    else validateNoMultipleDefaultsLoop ps (if p.Default then p.Typ else defaultType)

/-- The function `validateNoMultipleDefaults`. -/
def validateNoMultipleDefaults (processes : List Process) : Option String :=
  validateNoMultipleDefaultsLoop processes ""

/-! ## Requirements, BOM entries and unmet declarations -/

/-- A scalar TOML value, as it is held by an `interface{}` after decoding. -/
inductive Value where
  | str (s : String)
  | int (i : Int)
  | bool (b : Bool)
  deriving DecidableEq, Repr

/-- The text `fmt.Sprintf("%v", v)` gives for a decoded scalar. -/
def Value.format : Value → String
  | .str s => s
  | .int i => toString i
  | .bool b => if b then "true" else "false"

/-- A Go `map[string]interface{}` with scalar values: a list of bindings read
by key. The `nil` map and the empty map are both `[]`. -/
abbrev Metadata := List (String × Value)

/-- The map read `m[key]` with its `ok` result. -/
def Metadata.get (m : Metadata) (key : String) : Option Value :=
  (m.find? (fun kv => kv.1 == key)).map Prod.snd

/-- The map write `m[key] = v`. -/
def Metadata.set : Metadata → String → Value → Metadata
  | [], key, v => [(key, v)]
  | kv :: rest, key, v =>
    if kv.1 == key then (key, v) :: rest else kv :: Metadata.set rest key v

/-- The fields of `GroupBuildable` that the build step reads. -/
structure GroupBuildable where
  ID : String
  Version : String
  API : String
  Homepage : String
  deriving DecidableEq, Repr

/-- The type `Require`: one entry of a buildpack plan. -/
structure Require where
  Name : String
  Version : String
  Metadata : Metadata
  deriving DecidableEq, Repr

/-- The type `Plan`. -/
structure Plan where
  Entries : List Require
  deriving DecidableEq, Repr

/-- The type `BOMEntry`: a requirement with the buildpack that met it. -/
structure BOMEntry where
  Name : String
  Version : String
  Metadata : Metadata
  Buildpack : GroupBuildable
  deriving DecidableEq, Repr

/-- The type `Unmet`. -/
structure Unmet where
  Name : String
  deriving DecidableEq, Repr

/-- The method `BOMEntry.ConvertMetadataToVersion`. -/
def BOMEntry.ConvertMetadataToVersion (bom : BOMEntry) : BOMEntry :=
  match bom.Metadata.get "version" with
  | some version => { bom with Version := version.format }
  | none => bom

/-- The method `BOMEntry.convertVersionToMetadata`. -/
def BOMEntry.convertVersionToMetadata (bom : BOMEntry) : BOMEntry :=
  if bom.Version ≠ "" then
    { bom with Metadata := bom.Metadata.set "version" (.str bom.Version), Version := "" }
  else bom

/-- The error `validateUnmet` returns for an empty name. -/
def errUnmetNameRequired : String := "unmet.name is required"

/-- The error `validateUnmet` returns for a name that no requirement has. -/
def errUnmetNoMatch (name : String) : String :=
  "unmet.name '" ++ name ++ "' must match a requested dependency"

/-- The function `validateUnmet`. The inner loop over `bpPlan.Entries` that
sets `found` is `List.any`. -/
def validateUnmet : List Unmet → Plan → Option String
  | [], _ => none
  | unmet :: rest, bpPlan =>
    if unmet.Name = "" then some errUnmetNameRequired
    else if bpPlan.Entries.any (fun req => unmet.Name == req.Name) then
      validateUnmet rest bpPlan
    else some (errUnmetNoMatch unmet.Name)

/-- The function `names`. -/
def names (requires : List Require) : List String :=
  requires.map (fun req => req.Name)

/-! ## Errors -/

/-- A Go `error` of the build step: an operating-system error, identified by
its errno, the error of the TOML decoder for a key whose value is not of the
type of its field (the text is the library's), an error made from a message,
or an error wrapped by `NewError(err, ErrTypeBuildpack)`. -/
inductive Err where
  | enoent
  | eexist
  | enotdir
  | eisdir
  | einval
  | eacces
  | ebusy
  | enametoolong
  | tomlType (key : String)
  | text (msg : String)
  | buildpack (cause : Err)
  deriving DecidableEq, Repr

deriving instance DecidableEq for Except

/-- The test `os.IsNotExist`. -/
def Err.IsNotExist : Err → Bool
  | .enoent => true
  | _ => false

/-! ## Paths (package `path/filepath`, Unix) -/

/-- Splits the characters of a path at every slash; `cur` holds the
characters of the current element in reverse. -/
def splitSlash : List Char → List Char → List String
  | [], cur => [String.mk cur.reverse]
  | c :: cs, cur =>
    if c = '/' then String.mk cur.reverse :: splitSlash cs [] else splitSlash cs (c :: cur)

/-- A lexically cleaned path: whether it starts at the root, and its elements. -/
structure Path where
  rooted : Bool
  comps : List String
  deriving DecidableEq, Repr

/-- One step of `filepath.Clean` over the elements read so far (`out`, in
reverse): empty elements and `.` are dropped, `..` removes the element before
it, is dropped at the root and is kept at the start of a relative path. -/
def cleanStep (rooted : Bool) (out : List String) (elem : String) : List String :=
  if elem = "" ∨ elem = "." then out
  else if elem = ".." then
    match out with
    | [] => if rooted then [] else [".."]
    | last :: before => if last = ".." then ".." :: last :: before else before
  else elem :: out

/-- The cleaned form of a path string. -/
def Path.parse (s : String) : Path :=
  let rooted := decide (s.data.head? = some '/')
  { rooted := rooted, comps := ((splitSlash s.data []).foldl (cleanStep rooted) []).reverse }

/-- The string of a cleaned path; the empty relative path is `.`. -/
def Path.render (p : Path) : String :=
  if p.rooted then "/" ++ "/".intercalate p.comps
  else if p.comps = [] then "." else "/".intercalate p.comps

/-- The function `filepath.Clean`. -/
def filepathClean (s : String) : String := (Path.parse s).render

/-- The function `filepath.Join`: empty elements are ignored, the rest is
joined with slashes and cleaned; no non-empty element gives the empty string. -/
def filepathJoin (elems : List String) : String :=
  match elems.filter (fun e => e ≠ "") with
  | [] => ""
  | nonEmpty => filepathClean ("/".intercalate nonEmpty)

/-- The type `LayerMetadataFile`; `Data` is `none` for a `nil` interface. -/
structure LayerMetadataFile where
  Data : Option Metadata
  Build : Bool
  Launch : Bool
  Cache : Bool
  deriving DecidableEq, Repr

/-- The zero value `LayerMetadataFile{}`. -/
def LayerMetadataFile.zero : LayerMetadataFile :=
  { Data := none, Build := false, Launch := false, Cache := false }

/-- What the key `types` of a layer metadata file holds: a scalar, or a table
with the keys `build`, `launch` and `cache` it defines. -/
inductive TypesValue where
  | scalar (v : Value)
  | table (build launch cache : Option Value)
  deriving DecidableEq, Repr

/-- A parsed `<layer>.toml`: for each key the codec reads, the value when the
key is defined. -/
structure LayerToml where
  metadata : Option Metadata
  build : Option Value
  launch : Option Value
  cache : Option Value
  types : Option TypesValue
  deriving DecidableEq, Repr

/-- The text of a file as the TOML parser sees it. -/
inductive Parsed where
  | malformed (msg : String)
  | doc (d : LayerToml)
  deriving DecidableEq, Repr

/-- The constant `warningTypesKey`. -/
def warningTypesKey : String :=
  "Warning: types table isn't supported in this buildpack api version. The launch, build and cache flags should be in the top level. Ignoring the values in the types table."

/-- The constant `warningTypesTopLevel`, formatted with the path. -/
def warningTypesTopLevel (path : String) : String :=
  "the launch, cache and build flags should be in the types table of " ++ path

/-- Decoding of a key into a `bool` field: an undefined key leaves the field,
a boolean sets it, any other value is an error. -/
def decodeBool (key : String) (v : Option Value) (cur : Bool) : Except Err Bool :=
  match v with
  | none => .ok cur
  | some (.bool b) => .ok b
  | some _ => .error (.tomlType key)

/-- The function `decodeLayerMetadataFileO5` on the parsed file: the record in
`dest` after decoding, and the returned message. -/
def decodeLayerMetadataFileO5 (file : Parsed) (dest : LayerMetadataFile) :
    Except Err (LayerMetadataFile × String) :=
  match file with
  | .malformed msg => .error (.text msg)
  | .doc d => do
    let build ← decodeBool "build" d.build dest.Build
    let launch ← decodeBool "launch" d.launch dest.Launch
    let cache ← decodeBool "cache" d.cache dest.Cache
    let dest1 : LayerMetadataFile :=
      { Data := (match d.metadata with
          | some m => some m
          | none => dest.Data),
        Build := build, Launch := launch, Cache := cache }
    if d.types.isSome then .ok (dest1, warningTypesKey) else .ok (dest1, "")

/-- The function `decodeLayerMetadataFileO6` on the parsed file. -/
def decodeLayerMetadataFileO6 (file : Parsed) (path : String) (dest : LayerMetadataFile) :
    Except Err (LayerMetadataFile × String) :=
  match file with
  | .malformed msg => .error (.text msg)
  | .doc d => do
    let metaWithTypes : LayerMetadataFile ←
      (match d.types with
        | none => .ok { Data := d.metadata, Build := false, Launch := false, Cache := false }
        | some (.scalar _) => .error (.tomlType "types")
        | some (.table b l c) => do
          let build ← decodeBool "types.build" b false
          let launch ← decodeBool "types.launch" l false
          let cache ← decodeBool "types.cache" c false
          .ok { Data := d.metadata, Build := build, Launch := launch, Cache := cache })
    if d.build.isSome || d.launch.isSome || d.cache.isSome then
      .ok (dest, warningTypesTopLevel path)
    else
      .ok ({ Data := metaWithTypes.Data, Build := metaWithTypes.Build,
             Launch := metaWithTypes.Launch, Cache := metaWithTypes.Cache }, "")

/-- The document that `EncodeLayerMetadataFile` hands to the TOML encoder:
below API 0.6 the record itself, from 0.6 on the struct literal that sets
`Data` only, whose `Types` fields hold their zero values. -/
def encodedLayerToml (lmf : LayerMetadataFile) (buildpackAPI : Version) : LayerToml :=
  if buildpackAPI.Compare api06 < 0 then
    { metadata := lmf.Data, build := some (.bool lmf.Build), launch := some (.bool lmf.Launch),
      cache := some (.bool lmf.Cache), types := none }
  else
    { metadata := lmf.Data, build := none, launch := none, cache := none,
      types := some (.table (some (.bool false)) (some (.bool false)) (some (.bool false))) }

/-! ## The filesystem -/

/-- A node of the filesystem: a directory, a file with its parsed text, or a
file that cannot be opened. -/
inductive Node where
  | dir
  | file (content : Parsed)
  | noAccess
  deriving DecidableEq, Repr

/-- The filesystem state: the nodes by resolved path. The state is one
filesystem without symbolic links in which the process may search and write
every directory; the root, the working directory and the directories above
the working directory exist without an entry. -/
structure FS where
  nodes : List (Path × Node)
  deriving DecidableEq, Repr

/-- The node at a resolved path. -/
def FS.nodeAt (fs : FS) (p : Path) : Option Node :=
  if p.comps.all (fun c => c == "..") then some .dir
  else (fs.nodes.find? (fun kv => kv.1 == p)).map Prod.snd

/-- The directory that holds a resolved path; the root holds itself. -/
def Path.parent (p : Path) : Path :=
  match p.comps.getLast? with
  | none => if p.rooted then p else { p with comps := [".."] }
  | some last =>
    if last = ".." then { p with comps := p.comps ++ [".."] }
    else { p with comps := p.comps.dropLast }

/-- The number of bytes of a character in UTF-8. -/
def utf8Len (c : Char) : Nat :=
  if c.toNat < 128 then 1 else if c.toNat < 2048 then 2 else if c.toNat < 65536 then 3 else 4

/-- The number of bytes of a string in UTF-8. -/
def byteLen (s : String) : Nat := (s.data.map utf8Len).sum

/-- The directory a path names, when the walk has to pass through it: a
missing node is `ENOENT`, a node that is not a directory `ENOTDIR`. -/
def FS.enter (fs : FS) (p : Path) : Except Err Path :=
  match fs.nodeAt p with
  | none => .error .enoent
  | some .dir => .ok p
  | some _ => .error .enotdir

/-- One element of a path, read in the directory `cur`: the empty element and
`.` stay, `..` goes to the directory that holds `cur`, a name of more than
255 bytes is `ENAMETOOLONG`, any other name goes to the entry of that name,
which may be missing. -/
def FS.step (fs : FS) (cur : Path) (elem : String) : Except Err Path :=
  if elem = "" ∨ elem = "." then .ok cur
  else if elem = ".." then fs.enter cur.parent
  else if 255 < byteLen elem then .error .enametoolong
  else .ok { cur with comps := cur.comps ++ [elem] }

/-- The walk through the elements of a path that are not its last one: each
of them must lead to a directory. -/
def FS.walkDir (fs : FS) : List String → Path → Except Err Path
  | [], cur => .ok cur
  | elem :: rest, cur =>
    match fs.step cur elem with
    | .error err => .error err
    | .ok next =>
      match fs.enter next with
      | .error err => .error err
      | .ok dir => fs.walkDir rest dir

/-- The resolution of a path string: the empty string is `ENOENT`, a string of
4096 bytes or more `ENAMETOOLONG`; otherwise the elements before the last are
walked through, from the root or from the working directory, and the last
element is read in the directory reached. -/
def FS.resolve (fs : FS) (path : String) : Except Err Path :=
  if path = "" then .error .enoent
  else if 4096 ≤ byteLen path then .error .enametoolong
  else
    match fs.walkDir (splitSlash path.data []).dropLast
        { rooted := decide (path.data.head? = some '/'), comps := [] } with
    | .error err => .error err
    | .ok dir => fs.step dir ((splitSlash path.data []).getLastD "")

/-- The calls `os.Lstat` and `os.Stat`: the node a path names. -/
def FS.stat (fs : FS) (path : String) : Except Err Node :=
  match fs.resolve path with
  | .error err => .error err
  | .ok p =>
    match fs.nodeAt p with
    | none => .error .enoent
    | some node => .ok node

/-- Whether the path `p` is the path `a` or lies below it. -/
def Path.below (a p : Path) : Bool :=
  decide (a.rooted = p.rooted) && a.comps.isPrefixOf p.comps

/-- The path of a node after the directory `old` has become `new`. -/
def movePath (old new p : Path) : Path :=
  if old.below p then
    { rooted := new.rooted, comps := new.comps ++ p.comps.drop old.comps.length }
  else p

/-- Whether the last element of a path string, trailing slashes apart, is a
name, not `.`, `..` or the root. -/
def lastIsName (path : String) : Bool :=
  match ((splitSlash path.data []).filter (fun c => c ≠ "")).getLast? with
  | none => false
  | some last => last ≠ "." && last ≠ ".."

/-- The system call `rename`. An error of the resolution of `oldname` comes
first, then `EBUSY` for a last element that is not a name, `ENOENT` for a
missing `oldname`, an error of the resolution of `newname`; a rename of a
node to itself does nothing; a directory cannot move below itself (`EINVAL`)
nor replace a node that is not a directory (`ENOTDIR`), nothing replaces a
directory that is not the node itself (`ENOTEMPTY`); otherwise the node and
all nodes below it move, replacing a file at `newname`. A failed rename
changes nothing. -/
def FS.renameCall (fs : FS) (oldname newname : String) : FS × Option Err :=
  match fs.resolve oldname with
  | .error err => (fs, some err)
  | .ok old =>
    if !lastIsName oldname || !lastIsName newname then (fs, some .ebusy)
    else
      match fs.nodeAt old with
      | none => (fs, some .enoent)
      | some oldNode =>
        match fs.resolve newname with
        | .error err => (fs, some err)
        | .ok new =>
          if old = new then (fs, none)
          else if oldNode = .dir ∧ old.below new then (fs, some .einval)
          else
            match fs.nodeAt new with
            | some .dir => (fs, some .eexist)
            | some _ =>
              if oldNode = .dir then (fs, some .enotdir)
              else
                ({ nodes := ((fs.nodes.filter (fun kv => kv.1 ≠ new)).map
                    (fun kv => (movePath old new kv.1, kv.2))) }, none)
            | none =>
              ({ nodes := ((fs.nodes.filter (fun kv => kv.1 ≠ new)).map
                  (fun kv => (movePath old new kv.1, kv.2))) }, none)

/-- The function `os.Rename` on Unix. When `newname` is a directory, the
function itself answers with the error of `Lstat(oldname)` or, unless the two
names are different names of one directory, with `EEXIST`; otherwise it makes
the system call. -/
def FS.Rename (fs : FS) (oldname newname : String) : FS × Option Err :=
  match fs.stat newname with
  | .ok .dir =>
    match fs.stat oldname with
    | .error err => (fs, some err)
    | .ok _ =>
      if oldname = newname ∨ fs.resolve oldname ≠ fs.resolve newname then (fs, some .eexist)
      else fs.renameCall oldname newname
  | _ => fs.renameCall oldname newname

/-- The function `os.Create` followed by the write of an encoded document: an
error of the resolution of the path is returned, a directory at the path is
`EISDIR`, a file that cannot be opened `EACCES`. -/
def FS.writeFile (fs : FS) (path : String) (d : LayerToml) : FS × Option Err :=
  match fs.resolve path with
  | .error err => (fs, some err)
  | .ok p =>
    match fs.nodeAt p with
    | some .dir => (fs, some .eisdir)
    | some .noAccess => (fs, some .eacces)
    | _ =>
      ({ nodes := (p, Node.file (.doc d)) :: fs.nodes.filter (fun kv => kv.1 ≠ p) }, none)

/-- The function `EncodeLayerMetadataFile`. -/
def EncodeLayerMetadataFile (fs : FS) (path : String) (lmf : LayerMetadataFile)
    (buildpackAPI : Version) : FS × Option Err :=
  fs.writeFile path (encodedLayerToml lmf buildpackAPI)

/-- The function `DecodeLayerMetadataFile`: the record in `dest` after the
call and the returned message, or the returned error. A missing file leaves
`dest` as it is, with no message and no error; any other error of `os.Open`
is returned. -/
def DecodeLayerMetadataFile (fs : FS) (path : String) (dest : LayerMetadataFile)
    (buildpackAPI : Version) : Except Err (LayerMetadataFile × String) :=
  match fs.stat path with
  | .error err => if err.IsNotExist then .ok (dest, "") else .error err
  | .ok .noAccess => .error .eacces
  | .ok .dir => .error .eisdir
  | .ok (.file content) =>
    if buildpackAPI.Compare api06 < 0 then decodeLayerMetadataFileO5 content dest
    else decodeLayerMetadataFileO6 content path dest

/-- The function `renameLayerDirIfNeeded`: the filesystem after the call and
the returned error. -/
def renameLayerDirIfNeeded (fs : FS) (layerMetadataFile : LayerMetadataFile)
    (layerDir : String) : FS × Option Err :=
  if !layerMetadataFile.Launch && !layerMetadataFile.Cache && !layerMetadataFile.Build then
    match fs.Rename layerDir (layerDir ++ ".ignore") with
    | (fs1, some err) => if err.IsNotExist then (fs1, none) else (fs1, some err)
    | (fs1, none) => (fs1, none)
  else (fs, none)

/-! ## Processing the layers -/

/-- The buildpack part of a `Descriptor`. -/
structure Info where
  ID : String
  Version : String
  ClearEnv : Bool
  deriving DecidableEq, Repr

/-- The type `Descriptor`, with its `API` already parsed. -/
structure Descriptor where
  API : Version
  Buildpack : Info
  Dir : String
  deriving DecidableEq, Repr

/-- The fields of `BuildConfig` that name directories. -/
structure BuildConfig where
  AppDir : String
  PlatformDir : String
  LayersDir : String
  deriving DecidableEq, Repr

/-- The methods of `BuildEnv` that `runBuildCmd` calls, as their results. -/
structure BuildEnv where
  WithPlatform : String → Except Err (List String)
  List : List String

/-- The fields of `exec.Cmd` that `runBuildCmd` sets. `Args` holds the
command name followed by the arguments. -/
structure Cmd where
  Path : String
  Args : List String
  Dir : String
  Env : List String
  deriving DecidableEq, Repr

/-- The function `exec.Command` for a name that contains a path separator. -/
def execCommand (name : String) (arg : List String) : Cmd :=
  { Path := name, Args := name :: arg, Dir := "", Env := [] }

/-- Modelled from the spec: the constant `EnvBuildpackDir` is declared outside
these sources; the spec says one variable conventionally naming the module's
root directory is always injected into the environment of the subprocess. -/
def EnvBuildpackDir : String := "CNB_BUILDPACK_DIR"

/-- Outcome of `runBuildCmd`: the command handed to `cmd.Run`, when the
function gets that far, and the returned error. -/
structure RunResult where
  ran : Option Cmd
  err : Option Err

/-- The function `runBuildCmd`; `run` is the outcome of `cmd.Run`. -/
def runBuildCmd (buildpackDir outputDir bpPlanPath : String) (config : BuildConfig)
    (bpEnv : BuildEnv) (clearEnv : Bool) (run : Cmd → Option Err) : RunResult :=
  let cmd := { execCommand (filepathJoin [buildpackDir, "bin", "build"])
                 [outputDir, config.PlatformDir, bpPlanPath] with Dir := config.AppDir }
  let env : Except Err (List String) :=
    if clearEnv then .ok bpEnv.List else bpEnv.WithPlatform config.PlatformDir
  match env with
  | .error err => { ran := none, err := some err }
  | .ok env0 =>
    let cmd1 := { cmd with Env := env0 ++ [EnvBuildpackDir ++ "=" ++ buildpackDir] }
    match run cmd1 with
    | some err => { ran := some cmd1, err := some (.buildpack err) }
    | none => { ran := some cmd1, err := none }

/-! ## Reading the output files -/

/-- The type `Label`. -/
structure Label where
  Key : String
  Value : String
  deriving DecidableEq, Repr

/-- The type `layers.Slice`. -/
structure Slice where
  Paths : List String
  deriving DecidableEq, Repr

/-- The type `BOMFile`. -/
structure BOMFile where
  BuildpackID : String
  LayerName : String
  LayerType : String
  Path : String
  deriving DecidableEq, Repr

/-- The type `LaunchTOML`. -/
structure LaunchTOML where
  BOM : List BOMEntry
  Labels : List Label
  Processes : List Process
  Slices : List Slice
  deriving DecidableEq, Repr

/-- The type `BuildTOML`. -/
structure BuildTOML where
  BOM : List BOMEntry
  Unmet : List Unmet
  deriving DecidableEq, Repr

/-- The zero value `BuildTOML{}`. -/
def BuildTOML.zero : BuildTOML := { BOM := [], Unmet := [] }

/-- The type `BuildResult`, without `Dockerfiles`, which the build step never sets. -/
structure BuildResult where
  BOM : List BOMEntry
  BOMFiles : List BOMFile
  Labels : List Label
  MetRequires : List String
  Processes : List Process
  Slices : List Slice
  deriving DecidableEq, Repr

/-- The zero value `BuildResult{}`. -/
def BuildResult.zero : BuildResult :=
  { BOM := [], BOMFiles := [], Labels := [], MetRequires := [], Processes := [], Slices := [] }

/-- What `toml.DecodeFile` yields for each of the three files that
`readOutputFiles` reads; a missing file is the error `ENOENT`. -/
structure OutputFiles where
  plan : Except Err Plan
  build : Except Err BuildTOML
  launch : Except Err LaunchTOML

/-- The functions of the package that `readOutputFiles` calls and that are
declared outside these sources. `ValidateBOM` is the method of the validator
that `NewBOMValidator(b.API, logger)` returns: its arguments are the API, the
buildpack and the entries. -/
structure Collaborators where
  ValidateBOM : Version → GroupBuildable → List BOMEntry → Except Err (List BOMEntry)
  processBOMFiles : Descriptor → String → GroupBuildable →
    List (String × LayerMetadataFile) → Except Err (List BOMFile)
  toBOM : Plan → List BOMEntry
  filter : Plan → List Unmet → Plan

/-- The value `bpFromBpInfo` of `readOutputFiles`. -/
def Descriptor.bpFromBpInfo (b : Descriptor) : GroupBuildable :=
  { ID := b.Buildpack.ID, Version := b.Buildpack.Version, API := "", Homepage := "" }

/-- The variable `buildTOML` of `readOutputFiles` after `build.toml` has been
read without error: the decoded file, or the zero value for a missing file. -/
def OutputFiles.buildTOML (files : OutputFiles) : BuildTOML :=
  match files.build with
  | .ok buildTOML => buildTOML
  | .error _ => BuildTOML.zero

/-- The end of `readOutputFiles`, after `launch.toml` has been read: the two
checks of the process list, then the data of `launch.toml` is set. The first
component holds the warnings logged. -/
def setLaunchData (b : Descriptor) (br : BuildResult) (launchTOML : LaunchTOML) :
    List String × Except Err BuildResult :=
  let o := overrideDefaultForOldBuildpacks launchTOML.Processes b.API
  match o.err with
  | some err => (o.warnings, .error (.text err))
  | none =>
    match validateNoMultipleDefaults o.processes with
    | some err => (o.warnings, .error (.text err))
    | none =>
      (o.warnings, .ok { br with
        Labels := launchTOML.Labels,
        Processes := o.processes.map (fun p => { p with BuildpackID := b.Buildpack.ID }),
        Slices := launchTOML.Slices })

/-- The branch of `readOutputFiles` from API 0.5 on, after `build.toml` has
been read into `buildTOML`. -/
def readOutputFilesFrom05 (c : Collaborators) (b : Descriptor) (files : OutputFiles)
    (bpLayersDir : String) (bpPlanIn : Plan) (bpLayers : List (String × LayerMetadataFile))
    (buildTOML : BuildTOML) : List String × Except Err BuildResult :=
  match c.ValidateBOM b.API b.bpFromBpInfo buildTOML.BOM with
  | .error err => ([], .error err)
  | .ok _ =>
    match validateUnmet buildTOML.Unmet bpPlanIn with
    | some err => ([], .error (.text err))
    | none =>
      match c.processBOMFiles b bpLayersDir b.bpFromBpInfo bpLayers with
      | .error err => ([], .error err)
      | .ok bomFiles =>
        let br := { BuildResult.zero with
          MetRequires := names (c.filter bpPlanIn buildTOML.Unmet).Entries,
          BOMFiles := bomFiles }
        match files.launch with
        | .error err => if err.IsNotExist then ([], .ok br) else ([], .error err)
        | .ok launchTOML =>
          match c.ValidateBOM b.API b.bpFromBpInfo launchTOML.BOM with
          | .error err => ([], .error err)
          | .ok bom => setLaunchData b { br with BOM := bom } launchTOML

/-- The method `Descriptor.readOutputFiles`: the warnings logged and the
returned result or error. -/
def Descriptor.readOutputFiles (c : Collaborators) (b : Descriptor) (files : OutputFiles)
    (bpLayersDir : String) (bpPlanIn : Plan) (bpLayers : List (String × LayerMetadataFile)) :
    List String × Except Err BuildResult :=
  let bpFromBpInfo : GroupBuildable := b.bpFromBpInfo
  if b.API.LessThan api05 then
    match files.plan with
    | .error err => ([], .error err)
    | .ok bpPlanOut =>
      match c.ValidateBOM b.API bpFromBpInfo (c.toBOM bpPlanOut) with
      | .error err => ([], .error err)
      | .ok bom =>
        match c.processBOMFiles b bpLayersDir bpFromBpInfo bpLayers with
        | .error err => ([], .error err)
        | .ok bomFiles =>
          let br := { BuildResult.zero with
            BOM := bom, MetRequires := names bpPlanOut.Entries, BOMFiles := bomFiles }
          match files.launch with
          | .error err => if err.IsNotExist then ([], .ok br) else ([], .error err)
          | .ok launchTOML => setLaunchData b br launchTOML
  else
    match files.build with
    | .error err =>
      if err.IsNotExist then
        readOutputFilesFrom05 c b files bpLayersDir bpPlanIn bpLayers BuildTOML.zero
      else ([], .error err)
    | .ok buildTOML => readOutputFilesFrom05 c b files bpLayersDir bpPlanIn bpLayers buildTOML

/-- Whether a call returned an error. -/
def failed {α : Type} (r : Except Err α) : Bool :=
  match r with
  | .error _ => true
  | .ok _ => false

/-- The BOM entries the module produced: below API 0.5 those of the plan it
rewrote, from 0.5 on those of `build.toml` and of `launch.toml`. -/
def producedBOM (c : Collaborators) (b : Descriptor) (files : OutputFiles) : List BOMEntry :=
  if b.API.LessThan api05 then
    match files.plan with
    | .ok bpPlanOut => c.toBOM bpPlanOut
    | .error _ => []
  else
    (match files.build with
      | .ok buildTOML => buildTOML.BOM
      | .error _ => []) ++
    (match files.launch with
      | .ok launchTOML => launchTOML.BOM
      | .error _ => [])

end Buildpack

/-! ## Theorems -/

namespace Buildpack

/-! ### Versions -/

theorem Version.lessThan_iff_not_atLeast (v o : Version) :
    v.LessThan o = true ↔ v.AtLeast o = false := by
  simp [Version.LessThan, Version.AtLeast]

/-! ### Launch processes -/

theorem overrideLoop_eq (ps : List Process) (acc : List String) :
    overrideLoop ps acc =
      (ps.map (fun p => { p with Default := false }),
       acc ++ (ps.filter (fun p => p.Default)).map (fun p => p.Typ)) := by
  induction ps generalizing acc with
  | nil => simp [overrideLoop]
  | cons p ps ih =>
    cases hd : p.Default <;> simp [overrideLoop, ih, hd, List.filter_cons]

theorem validateLoop_all_false (ps : List Process) (defaultType : String)
    (h : ∀ p ∈ ps, p.Default = false) :
    validateNoMultipleDefaultsLoop ps defaultType = none := by
  induction ps generalizing defaultType with
  | nil => rfl
  | cons p ps ih =>
    have hp : p.Default = false := h p (List.mem_cons_self _ _)
    simp only [validateNoMultipleDefaultsLoop, hp, Bool.false_and, Bool.false_eq_true, if_false]
    exact ih _ (fun q hq => h q (List.mem_cons_of_mem _ hq))

theorem override_old_api (processes : List Process) (bpAPI : Version)
    (h6 : bpAPI.AtLeast api06 = false) :
    overrideDefaultForOldBuildpacks processes bpAPI =
      { processes := processes.map (fun p => { p with Default := false }),
        warnings :=
          if 0 < (processes.filter (fun p => p.Default)).length then
            [overrideWarning ((processes.filter (fun p => p.Default)).map (fun p => p.Typ))]
          else [],
        err := none } := by
  simp only [overrideDefaultForOldBuildpacks, h6, overrideLoop_eq, List.nil_append,
    List.length_map, gt_iff_lt, Bool.false_eq_true, if_false]
  split <;> rfl

/-- C4: two processes with their Default flag set, the first of them with the
empty type: `validateNoMultipleDefaults` returns no error, although more than
one process of the list is marked default. -/
theorem validateNoMultipleDefaults_misses_empty_type :
    validateNoMultipleDefaults
        [{ Typ := "", Command := "a", Args := [], Direct := false, Default := true,
           BuildpackID := "" },
         { Typ := "web", Command := "b", Args := [], Direct := false, Default := true,
           BuildpackID := "" }] = none ∧
      ([{ Typ := "", Command := "a", Args := [], Direct := false, Default := true,
           BuildpackID := "" },
        { Typ := "web", Command := "b", Args := [], Direct := false, Default := true,
           BuildpackID := "" }].filter (fun p : Process => p.Default)).length = 2 := by
  decide

/-- C5: below API 0.6 `overrideDefaultForOldBuildpacks` returns no error,
clears every Default flag and changes nothing else, and logs one warning whose
text ends with the types, in list order and joined by a comma and a blank, of
the processes whose flag was set, or no warning when there is none; from API
0.6 on the list is unchanged and nothing is logged. The list with the single
default process `web` becomes the same list with the flag cleared, with one
warning that names `web`. -/
theorem overrideDefaultForOldBuildpacks_spec (processes : List Process) (bpAPI : Version) :
    (bpAPI.LessThan api06 = true →
      (overrideDefaultForOldBuildpacks processes bpAPI).err = none ∧
      (overrideDefaultForOldBuildpacks processes bpAPI).processes =
        processes.map (fun p => { p with Default := false }) ∧
      (overrideDefaultForOldBuildpacks processes bpAPI).warnings =
        (if (∃ p ∈ processes, p.Default = true) then
          ["Warning: default processes aren't supported in this buildpack api version. Overriding the default value to false for the following processes: ["
            ++ ", ".intercalate
                ((processes.filter (fun p => p.Default)).map (fun p => p.Typ)) ++ "]"]
        else [])) ∧
    (bpAPI.LessThan api06 = false →
      overrideDefaultForOldBuildpacks processes bpAPI =
        { processes := processes, warnings := [], err := none }) ∧
    overrideDefaultForOldBuildpacks
        [{ Typ := "web", Command := "run", Args := [], Direct := false, Default := true,
           BuildpackID := "" }] api05 =
      { processes := [{ Typ := "web", Command := "run", Args := [], Direct := false,
                        Default := false, BuildpackID := "" }],
        warnings := ["Warning: default processes aren't supported in this buildpack api version. Overriding the default value to false for the following processes: [web]"],
        err := none } ∧
    overrideDefaultForOldBuildpacks
        [{ Typ := "web", Command := "run", Args := [], Direct := false, Default := true,
           BuildpackID := "" },
         { Typ := "job", Command := "once", Args := [], Direct := false, Default := false,
           BuildpackID := "" },
         { Typ := "worker", Command := "work", Args := [], Direct := true, Default := true,
           BuildpackID := "" }] api02 =
      { processes :=
          [{ Typ := "web", Command := "run", Args := [], Direct := false, Default := false,
             BuildpackID := "" },
           { Typ := "job", Command := "once", Args := [], Direct := false, Default := false,
             BuildpackID := "" },
           { Typ := "worker", Command := "work", Args := [], Direct := true, Default := false,
             BuildpackID := "" }],
        warnings := ["Warning: default processes aren't supported in this buildpack api version. Overriding the default value to false for the following processes: [web, worker]"],
        err := none } := by
  refine ⟨?_, ?_, by decide, by decide⟩
  · intro h
    have h6 : bpAPI.AtLeast api06 = false := (Version.lessThan_iff_not_atLeast _ _).1 h
    rw [override_old_api processes bpAPI h6]
    refine ⟨rfl, rfl, ?_⟩
    by_cases hex : ∃ p ∈ processes, p.Default = true
    · have hne : (processes.filter (fun p => p.Default)) ≠ [] := by
        obtain ⟨p, hp, hd⟩ := hex
        intro hnil
        have : p ∈ processes.filter (fun p => p.Default) := List.mem_filter.2 ⟨hp, hd⟩
        rw [hnil] at this
        exact List.not_mem_nil _ this
      have hlen : 0 < (processes.filter (fun p => p.Default)).length :=
        List.length_pos.2 hne
      simp only [hlen, if_true, if_pos hex, overrideWarning]
    · have hnil : processes.filter (fun p => p.Default) = [] := by
        apply List.filter_eq_nil_iff.2
        intro p hp hd
        exact hex ⟨p, hp, hd⟩
      simp only [hnil, List.length_nil, lt_self_iff_false, if_false, if_neg hex]
  · intro h
    have h6 : bpAPI.AtLeast api06 = true := by
      cases hh : bpAPI.AtLeast api06
      · exact absurd ((Version.lessThan_iff_not_atLeast _ _).2 hh) (by simp [h])
      · rfl
    simp [overrideDefaultForOldBuildpacks, h6]

/-- C10: below API 0.6, `validateNoMultipleDefaults` run on the list that
`overrideDefaultForOldBuildpacks` leaves returns no error, whatever Default
flags the list had. -/
theorem validate_after_override_old_api (processes : List Process) (bpAPI : Version)
    (h : bpAPI.LessThan api06 = true) :
    (overrideDefaultForOldBuildpacks processes bpAPI).err = none ∧
    validateNoMultipleDefaults (overrideDefaultForOldBuildpacks processes bpAPI).processes
      = none := by
  have h6 : bpAPI.AtLeast api06 = false := (Version.lessThan_iff_not_atLeast _ _).1 h
  rw [override_old_api processes bpAPI h6]
  refine ⟨rfl, ?_⟩
  apply validateLoop_all_false
  intro p hp
  obtain ⟨q, _, rfl⟩ := List.mem_map.1 hp
  rfl

theorem validate_after_override_old_api_witness :
    api05.LessThan api06 = true ∧
    validateNoMultipleDefaults (overrideDefaultForOldBuildpacks
      [{ Typ := "web", Command := "a", Args := [], Direct := false, Default := true,
         BuildpackID := "" },
       { Typ := "worker", Command := "b", Args := [], Direct := false, Default := true,
         BuildpackID := "" }] api05).processes = none :=
  ⟨by decide, (validate_after_override_old_api _ api05 (by decide)).2⟩

/-! ### Unmet requirements -/

/-- C3, as the code has it: `validateUnmet` returns an error if and only if
some entry of the unmet list has the empty name or a name that no requirement
of the plan has. -/
theorem validateUnmet_error_iff (unmet : List Unmet) (bpPlan : Plan) :
    validateUnmet unmet bpPlan ≠ none ↔
      ∃ u ∈ unmet, u.Name = "" ∨ ∀ req ∈ bpPlan.Entries, req.Name ≠ u.Name := by
  induction unmet with
  | nil => simp [validateUnmet]
  | cons u rest ih =>
    by_cases hempty : u.Name = ""
    · simp [validateUnmet, hempty]
    · by_cases hfound : bpPlan.Entries.any (fun req => u.Name == req.Name) = true
      · have hex : ¬ ∀ req ∈ bpPlan.Entries, req.Name ≠ u.Name := by
          intro hall
          obtain ⟨req, hreq, heq⟩ := List.any_eq_true.1 hfound
          exact hall req hreq (by simpa using (beq_iff_eq.1 heq).symm)
        simp only [validateUnmet, hempty, if_false, hfound, if_true, ih, List.mem_cons,
          exists_eq_or_imp, false_or]
        constructor
        · intro h
          exact Or.inr h
        · rintro (h | h)
          · exact absurd h hex
          · exact h
      · have hall : ∀ req ∈ bpPlan.Entries, req.Name ≠ u.Name := by
          intro req hreq heq
          apply hfound
          exact List.any_eq_true.2 ⟨req, hreq, by simp [heq]⟩
        simp only [validateUnmet, hempty, if_false, hfound, Bool.false_eq_true, ne_eq,
          reduceCtorEq, not_false_eq_true, true_iff]
        exact ⟨u, List.mem_cons_self _ _, Or.inr hall⟩

/-- C3, refuted as stated: the unmet entry with the empty name is rejected
although the plan has a requirement of that name. -/
theorem validateUnmet_empty_name_counterexample :
    ¬ (validateUnmet [{ Name := "" }]
          { Entries := [{ Name := "", Version := "", Metadata := [] }] } ≠ none ↔
        ∃ u ∈ [({ Name := "" } : Unmet)],
          ∀ req ∈ [({ Name := "", Version := "", Metadata := [] } : Require)],
            req.Name ≠ u.Name) := by
  decide

/-! ### BOM entries -/

/-- C6, as the code has it: for an entry whose metadata has the key
`version`, `ConvertMetadataToVersion` sets `Version` to the string form of the
value and leaves the name, the buildpack and the whole metadata map as they
are, the key `version` included. -/
theorem ConvertMetadataToVersion_spec (bom : BOMEntry) (version : Value)
    (h : bom.Metadata.get "version" = some version) :
    bom.ConvertMetadataToVersion.Version = version.format ∧
    bom.ConvertMetadataToVersion.Name = bom.Name ∧
    bom.ConvertMetadataToVersion.Metadata = bom.Metadata ∧
    bom.ConvertMetadataToVersion.Buildpack = bom.Buildpack ∧
    bom.ConvertMetadataToVersion.Metadata.get "version" = some version := by
  simp [BOMEntry.ConvertMetadataToVersion, h]

theorem ConvertMetadataToVersion_spec_witness :
    (let node : BOMEntry :=
      { Name := "node", Version := "", Metadata := [("version", .str "14")],
        Buildpack := { ID := "", Version := "", API := "", Homepage := "" } }
     node.ConvertMetadataToVersion.Version = "14" ∧
     node.ConvertMetadataToVersion.Name = "node" ∧
     node.ConvertMetadataToVersion.Metadata = [("version", .str "14")]) :=
  have h := ConvertMetadataToVersion_spec
    { Name := "node", Version := "", Metadata := [("version", .str "14")],
      Buildpack := { ID := "", Version := "", API := "", Homepage := "" } }
    (.str "14") (by decide)
  ⟨h.1, h.2.1, h.2.2.1⟩

/-- C6, refuted as stated: after the conversion of the entry `node` with
metadata version 14 the metadata still has the key `version`. -/
theorem ConvertMetadataToVersion_keeps_key_counterexample :
    ¬ ((BOMEntry.ConvertMetadataToVersion
          { Name := "node", Version := "", Metadata := [("version", .str "14")],
            Buildpack := { ID := "", Version := "", API := "", Homepage := "" } }).Metadata.get
        "version" = none) := by
  decide

/-! ### The build command -/

/-- C9, as the code has it: when the environment is built without error,
`runBuildCmd` runs the command whose path is the join of the buildpack
directory with `bin` and `build`, whose arguments after the command name are
the output directory, the platform directory and the plan path, in that
order, and whose working directory is the application directory of the
configuration; when `WithPlatform` fails no command is run. -/
theorem runBuildCmd_command (buildpackDir outputDir bpPlanPath : String) (config : BuildConfig)
    (bpEnv : BuildEnv) (clearEnv : Bool) (run : Cmd → Option Err) :
    (runBuildCmd buildpackDir outputDir bpPlanPath config bpEnv clearEnv run).ran =
      match (if clearEnv then Except.ok bpEnv.List else bpEnv.WithPlatform config.PlatformDir) with
      | .error _ => none
      | .ok env0 =>
        some { Path := filepathJoin [buildpackDir, "bin", "build"],
               Args := [filepathJoin [buildpackDir, "bin", "build"], outputDir,
                        config.PlatformDir, bpPlanPath],
               Dir := config.AppDir,
               Env := env0 ++ [EnvBuildpackDir ++ "=" ++ buildpackDir] } := by
  unfold runBuildCmd
  cases hclear : clearEnv
  · simp only [Bool.false_eq_true, if_false]
    cases hw : bpEnv.WithPlatform config.PlatformDir with
    | error e => rfl
    | ok env0 =>
      simp only [execCommand]
      cases run _ <;> rfl
  · simp only [if_true, execCommand]
    cases run _ <;> rfl

/-- C9, refuted as stated: for the buildpack directory `/cnb/buildpacks/node`
and the application directory `/workspace`, the command that is run has the
path `/cnb/buildpacks/node/bin/build` and the working directory `/workspace`,
not the buildpack directory. -/
theorem runBuildCmd_dir_counterexample :
    (runBuildCmd "/cnb/buildpacks/node" "/layers/node" "/tmp/plan/node/plan.toml"
        { AppDir := "/workspace", PlatformDir := "/platform", LayersDir := "/layers" }
        { WithPlatform := fun _ => .ok [], List := [] } true (fun _ => none)).ran =
      some { Path := "/cnb/buildpacks/node/bin/build",
             Args := ["/cnb/buildpacks/node/bin/build", "/layers/node", "/platform",
                      "/tmp/plan/node/plan.toml"],
             Dir := "/workspace",
             Env := ["CNB_BUILDPACK_DIR=/cnb/buildpacks/node"] } ∧
    ("/workspace" : String) ≠ "/cnb/buildpacks/node" := by
  decide

/-! ### Path resolution -/

theorem enter_ok (fs : FS) (p q : Path) (h : fs.enter p = .ok q) :
    q = p ∧ fs.nodeAt p = some .dir := by
  unfold FS.enter at h
  split at h
  · exact Except.noConfusion h
  · rename_i hdir
    cases h
    exact ⟨rfl, hdir⟩
  · exact Except.noConfusion h

theorem enter_of_dir (fs : FS) (p : Path) (h : fs.nodeAt p = some .dir) :
    fs.enter p = .ok p := by
  simp [FS.enter, h]

theorem enter_congr (fs fs2 : FS) (p q : Path)
    (hdirs : ∀ r, fs.nodeAt r = some .dir → fs2.nodeAt r = some .dir)
    (h : fs.enter p = .ok q) : fs2.enter p = .ok q := by
  obtain ⟨rfl, hd⟩ := enter_ok fs p q h
  exact enter_of_dir fs2 _ (hdirs _ hd)

theorem step_congr (fs fs2 : FS) (cur q : Path) (elem : String)
    (hdirs : ∀ r, fs.nodeAt r = some .dir → fs2.nodeAt r = some .dir)
    (h : fs.step cur elem = .ok q) : fs2.step cur elem = .ok q := by
  unfold FS.step at h ⊢
  split
  · rename_i h1
    simpa only [h1, if_true] using h
  · rename_i h1
    simp only [h1, if_false] at h
    split
    · rename_i h2
      simp only [h2, if_true] at h
      exact enter_congr fs fs2 _ _ hdirs h
    · rename_i h2
      simp only [h2, if_false] at h
      exact h

theorem walkDir_congr (fs fs2 : FS)
    (hdirs : ∀ r, fs.nodeAt r = some .dir → fs2.nodeAt r = some .dir) (elems : List String) :
    ∀ (cur q : Path), fs.walkDir elems cur = .ok q → fs2.walkDir elems cur = .ok q := by
  induction elems with
  | nil =>
    intro cur q h
    exact h
  | cons e rest ih =>
    intro cur q h
    unfold FS.walkDir at h ⊢
    cases hs : fs.step cur e with
    | error err => simp [hs] at h
    | ok next =>
      rw [hs] at h
      rw [step_congr fs fs2 cur next e hdirs hs]
      simp only at h ⊢
      cases he : fs.enter next with
      | error err => simp [he] at h
      | ok dir =>
        rw [he] at h
        rw [enter_congr fs fs2 next dir hdirs he]
        simp only at h ⊢
        exact ih _ _ h

theorem resolve_congr (fs fs2 : FS) (path : String) (p : Path)
    (hdirs : ∀ r, fs.nodeAt r = some .dir → fs2.nodeAt r = some .dir)
    (h : fs.resolve path = .ok p) : fs2.resolve path = .ok p := by
  unfold FS.resolve at h ⊢
  split
  · rename_i h1
    simp [h1] at h
  · rename_i h1
    simp only [h1, if_false] at h
    split
    · rename_i h2
      simp [h2] at h
    · rename_i h2
      simp only [h2, if_false] at h
      cases hw : fs.walkDir (splitSlash path.data []).dropLast
          { rooted := decide (path.data.head? = some '/'), comps := [] } with
      | error err => simp [hw] at h
      | ok dir =>
        rw [hw] at h
        rw [walkDir_congr fs fs2 hdirs _ _ _ hw]
        simp only at h ⊢
        exact step_congr fs fs2 _ _ _ hdirs h

/-- The scenarios of the rename: a cache-only layer is not renamed; a layer
with no flag set is renamed, with what is below it; a second call on the
renamed layer changes nothing and returns no error. -/
theorem renameLayerDirIfNeeded_scenarios :
    renameLayerDirIfNeeded
        { nodes := [(Path.parse "/layers", .dir), (Path.parse "/layers/bp", .dir),
                    (Path.parse "/layers/bp/x", .dir), (Path.parse "/layers/bp/x/bin", .dir)] }
        { Data := none, Build := false, Launch := false, Cache := true } "/layers/bp/x" =
      ({ nodes := [(Path.parse "/layers", .dir), (Path.parse "/layers/bp", .dir),
                   (Path.parse "/layers/bp/x", .dir), (Path.parse "/layers/bp/x/bin", .dir)] },
        none) ∧
    renameLayerDirIfNeeded
        { nodes := [(Path.parse "/layers", .dir), (Path.parse "/layers/bp", .dir),
                    (Path.parse "/layers/bp/x", .dir), (Path.parse "/layers/bp/x/bin", .dir)] }
        LayerMetadataFile.zero "/layers/bp/x" =
      ({ nodes := [(Path.parse "/layers", .dir), (Path.parse "/layers/bp", .dir),
                   (Path.parse "/layers/bp/x.ignore", .dir),
                   (Path.parse "/layers/bp/x.ignore/bin", .dir)] }, none) ∧
    renameLayerDirIfNeeded
        { nodes := [(Path.parse "/layers", .dir), (Path.parse "/layers/bp", .dir),
                    (Path.parse "/layers/bp/x.ignore", .dir),
                    (Path.parse "/layers/bp/x.ignore/bin", .dir)] }
        LayerMetadataFile.zero "/layers/bp/x" =
      ({ nodes := [(Path.parse "/layers", .dir), (Path.parse "/layers/bp", .dir),
                   (Path.parse "/layers/bp/x.ignore", .dir),
                   (Path.parse "/layers/bp/x.ignore/bin", .dir)] }, none) := by
  decide

/-! ### The layer metadata codec -/

theorem nodeAt_write_other (fs : FS) (p r : Path) (node : Node) (h : r ≠ p) :
    FS.nodeAt { nodes := (p, node) :: fs.nodes.filter (fun kv => kv.1 ≠ p) } r =
      fs.nodeAt r := by
  unfold FS.nodeAt
  split
  · rfl
  · have hpr : (p == r) = false := by simpa using fun e : p = r => h e.symm
    simp only [List.find?_cons, hpr, List.find?_filter]
    have hfun : (fun a : Path × Node => decide (decide (a.1 ≠ p) = true ∧ (a.1 == r) = true)) =
        (fun a : Path × Node => a.1 == r) := by
      funext a
      by_cases ha : a.1 = r
      · simp [ha, h]
      · simp [ha]
    rw [hfun]

theorem nodeAt_write_self (fs : FS) (p : Path) (node : Node)
    (h : fs.nodeAt p ≠ some .dir) :
    FS.nodeAt { nodes := (p, node) :: fs.nodes.filter (fun kv => kv.1 ≠ p) } p = some node := by
  unfold FS.nodeAt at h ⊢
  split
  · rename_i hv
    simp [hv] at h
  · simp

theorem writeFile_ok (fs : FS) (path : String) (d : LayerToml)
    (h : (fs.writeFile path d).2 = none) :
    (fs.writeFile path d).1.stat path = .ok (.file (.doc d)) := by
  unfold FS.writeFile at h ⊢
  cases hr : fs.resolve path with
  | error err => simp [hr] at h
  | ok p =>
    rw [hr] at h
    simp only at h ⊢
    have hwritten : fs.nodeAt p ≠ some .dir →
        FS.stat { nodes := (p, Node.file (.doc d)) :: fs.nodes.filter (fun kv => kv.1 ≠ p) }
          path = .ok (.file (.doc d)) := by
      intro hnd
      have hres : FS.resolve
          { nodes := (p, Node.file (.doc d)) :: fs.nodes.filter (fun kv => kv.1 ≠ p) }
          path = .ok p := by
        apply resolve_congr fs _ path p _ hr
        intro r hrdir
        have hrp : r ≠ p := by
          intro e
          rw [e] at hrdir
          exact hnd hrdir
        rw [nodeAt_write_other fs p r _ hrp]
        exact hrdir
      unfold FS.stat
      rw [hres]
      simp only
      rw [nodeAt_write_self fs p _ hnd]
    cases hn : fs.nodeAt p with
    | none =>
      simp only [hn] at h ⊢
      exact hwritten (by simp [hn])
    | some node =>
      cases node with
      | dir => simp [hn] at h
      | noAccess => simp [hn] at h
      | file c =>
        simp only [hn] at h ⊢
        exact hwritten (by simp [hn])

/-- Below API 0.6 the record written by `EncodeLayerMetadataFile` is read
back by `DecodeLayerMetadataFile` into a zero record, with no message. -/
theorem roundtrip_below_06 (fs : FS) (path : String) (lmf : LayerMetadataFile)
    (buildpackAPI : Version) (hapi : buildpackAPI.Compare api06 < 0)
    (hw : (EncodeLayerMetadataFile fs path lmf buildpackAPI).2 = none) :
    DecodeLayerMetadataFile (EncodeLayerMetadataFile fs path lmf buildpackAPI).1 path
      LayerMetadataFile.zero buildpackAPI = .ok (lmf, "") := by
  unfold EncodeLayerMetadataFile at hw ⊢
  have hl := writeFile_ok fs path _ hw
  simp only [DecodeLayerMetadataFile, hl, hapi, if_true]
  cases hd : lmf.Data <;>
    simp [encodedLayerToml, hapi, decodeLayerMetadataFileO5, decodeBool, LayerMetadataFile.zero,
      hd, bind, Except.bind] <;>
    (cases lmf; simp_all)

/-- From API 0.6 on the record written by `EncodeLayerMetadataFile` is read
back with its payload and with the three flags false. -/
theorem roundtrip_from_06 (fs : FS) (path : String) (lmf dest : LayerMetadataFile)
    (buildpackAPI : Version) (hapi : ¬ buildpackAPI.Compare api06 < 0)
    (hw : (EncodeLayerMetadataFile fs path lmf buildpackAPI).2 = none) :
    DecodeLayerMetadataFile (EncodeLayerMetadataFile fs path lmf buildpackAPI).1 path
      dest buildpackAPI =
        .ok ({ Data := lmf.Data, Build := false, Launch := false, Cache := false }, "") := by
  unfold EncodeLayerMetadataFile at hw ⊢
  have hl := writeFile_ok fs path _ hw
  simp only [DecodeLayerMetadataFile, hl, hapi, if_false]
  simp [encodedLayerToml, hapi, decodeLayerMetadataFileO6, decodeBool, bind, Except.bind]

/-- C1, at API 0.6: the file of a layer with `types.build = true` decodes,
with no message, to a record whose Build flag is set; the file that
`EncodeLayerMetadataFile` writes for this record decodes, under the same API,
to a record whose Build flag is false, so the record read back is not the
record written. -/
theorem roundtrip_from_06_loses_flags :
    DecodeLayerMetadataFile
        { nodes := [(Path.parse "/layers", .dir), (Path.parse "/layers/bp", .dir),
            (Path.parse "/layers/bp/x.toml", .file (.doc
            { metadata := some [("sha", .str "abc")], build := none, launch := none,
              cache := none, types := some (.table (some (.bool true)) none none) }))] }
        "/layers/bp/x.toml" LayerMetadataFile.zero api06 =
      .ok ({ Data := some [("sha", .str "abc")], Build := true, Launch := false,
             Cache := false }, "") ∧
    (EncodeLayerMetadataFile
        { nodes := [(Path.parse "/layers", .dir), (Path.parse "/layers/bp", .dir),
            (Path.parse "/layers/bp/x.toml", .file (.doc
            { metadata := some [("sha", .str "abc")], build := none, launch := none,
              cache := none, types := some (.table (some (.bool true)) none none) }))] }
        "/layers/bp/x.toml"
        { Data := some [("sha", .str "abc")], Build := true, Launch := false, Cache := false }
        api06).2 = none ∧
    DecodeLayerMetadataFile
        (EncodeLayerMetadataFile
          { nodes := [(Path.parse "/layers", .dir), (Path.parse "/layers/bp", .dir),
              (Path.parse "/layers/bp/x.toml", .file (.doc
              { metadata := some [("sha", .str "abc")], build := none, launch := none,
                cache := none, types := some (.table (some (.bool true)) none none) }))] }
          "/layers/bp/x.toml"
          { Data := some [("sha", .str "abc")], Build := true, Launch := false, Cache := false }
          api06).1
        "/layers/bp/x.toml" LayerMetadataFile.zero api06 =
      .ok ({ Data := some [("sha", .str "abc")], Build := false, Launch := false,
             Cache := false }, "") ∧
    ({ Data := some [("sha", .str "abc")], Build := false, Launch := false, Cache := false } :
        LayerMetadataFile) ≠
      { Data := some [("sha", .str "abc")], Build := true, Launch := false, Cache := false } := by
  refine ⟨by decide, by decide, ?_, by decide⟩
  exact roundtrip_from_06 _ _ _ _ api06 (by decide) (by decide)

/-! ### Processing the layers -/

theorem Version.lessThan_05_06 (v : Version) (h : v.LessThan api05 = true) :
    v.LessThan api06 = true := by
  simp only [Version.LessThan, Version.Compare, api05, api06, decide_eq_true_eq] at h ⊢
  split_ifs at h ⊢ <;> omega

theorem failed_error {α : Type} (e : Err) : failed (Except.error e : Except Err α) = true := rfl

theorem failed_ok {α : Type} (v : α) : failed (Except.ok v : Except Err α) = false := rfl

theorem setLaunchData_failed (b : Descriptor) (br : BuildResult) (launchTOML : LaunchTOML) :
    failed (setLaunchData b br launchTOML).2 = true ↔
      validateNoMultipleDefaults
        (overrideDefaultForOldBuildpacks launchTOML.Processes b.API).processes ≠ none := by
  have herr : (overrideDefaultForOldBuildpacks launchTOML.Processes b.API).err = none := by
    unfold overrideDefaultForOldBuildpacks
    split
    · rfl
    · simp only
      split <;> rfl
  unfold setLaunchData
  simp only [herr]
  cases validateNoMultipleDefaults
      (overrideDefaultForOldBuildpacks launchTOML.Processes b.API).processes <;>
    simp [failed]

theorem setLaunchData_old_api (b : Descriptor) (br : BuildResult) (launchTOML : LaunchTOML)
    (h : b.API.LessThan api05 = true) :
    failed (setLaunchData b br launchTOML).2 = false := by
  have h6 : b.API.AtLeast api06 = false :=
    (Version.lessThan_iff_not_atLeast _ _).1 (Version.lessThan_05_06 _ h)
  have hnone : validateNoMultipleDefaults
      (overrideDefaultForOldBuildpacks launchTOML.Processes b.API).processes = none := by
    rw [override_old_api _ _ h6]
    apply validateLoop_all_false
    intro p hp
    obtain ⟨q, _, rfl⟩ := List.mem_map.1 hp
    rfl
  cases hf : failed (setLaunchData b br launchTOML).2
  · rfl
  · exact absurd hnone ((setLaunchData_failed b br launchTOML).1 hf)

theorem readOutputFilesFrom05_failed (c : Collaborators) (b : Descriptor) (files : OutputFiles)
    (bpLayersDir : String) (bpPlanIn : Plan) (bpLayers : List (String × LayerMetadataFile))
    (buildTOML : BuildTOML) :
    failed (readOutputFilesFrom05 c b files bpLayersDir bpPlanIn bpLayers buildTOML).2 = true ↔
      (failed (c.ValidateBOM b.API b.bpFromBpInfo buildTOML.BOM) = true ∨
       validateUnmet buildTOML.Unmet bpPlanIn ≠ none ∨
       failed (c.processBOMFiles b bpLayersDir b.bpFromBpInfo bpLayers) = true ∨
       (∃ err, files.launch = .error err ∧ err.IsNotExist = false) ∨
       (∃ launchTOML, files.launch = .ok launchTOML ∧
          (failed (c.ValidateBOM b.API b.bpFromBpInfo launchTOML.BOM) = true ∨
           validateNoMultipleDefaults
             (overrideDefaultForOldBuildpacks launchTOML.Processes b.API).processes
               ≠ none))) := by
  unfold readOutputFilesFrom05
  cases hv : c.ValidateBOM b.API b.bpFromBpInfo buildTOML.BOM with
  | error err => simp [failed_error]
  | ok bom0 =>
    simp only
    cases hu : validateUnmet buildTOML.Unmet bpPlanIn with
    | some err => simp [failed_error]
    | none =>
      simp only
      cases hbf : c.processBOMFiles b bpLayersDir b.bpFromBpInfo bpLayers with
      | error err => simp [failed_error]
      | ok bomFiles =>
        simp only
        cases hl : files.launch with
        | error err => cases hne2 : err.IsNotExist <;> simp [failed_error, failed_ok, hne2]
        | ok launchTOML =>
          simp only
          cases hv2 : c.ValidateBOM b.API b.bpFromBpInfo launchTOML.BOM with
          | error err => simp [failed_error, hv2]
          | ok bom =>
            simp only [setLaunchData_failed]
            simp [failed_ok, hv2]

/-- C2, as the code has it: `readOutputFiles` never compares the names of the
BOM entries with the requirements of the plan `bpPlanIn`. It fails exactly
when a file it reads fails to decode, when `ValidateBOM`, which is given the
buildpack and the entries only, rejects a list of BOM entries, when
`processBOMFiles` fails, and, from API 0.5 on, when `validateUnmet` rejects the
unmet list against the plan or the process list of `launch.toml` is rejected
for more than one default process. -/
theorem readOutputFiles_fails_iff (c : Collaborators) (b : Descriptor) (files : OutputFiles)
    (bpLayersDir : String) (bpPlanIn : Plan) (bpLayers : List (String × LayerMetadataFile)) :
    (b.API.LessThan api05 = true →
      (failed (b.readOutputFiles c files bpLayersDir bpPlanIn bpLayers).2 = true ↔
        ((∃ err, files.plan = .error err) ∨
         (∃ bpPlanOut, files.plan = .ok bpPlanOut ∧
            failed (c.ValidateBOM b.API b.bpFromBpInfo (c.toBOM bpPlanOut)) = true) ∨
         failed (c.processBOMFiles b bpLayersDir b.bpFromBpInfo bpLayers) = true ∨
         (∃ err, files.launch = .error err ∧ err.IsNotExist = false)))) ∧
    (b.API.LessThan api05 = false →
      (failed (b.readOutputFiles c files bpLayersDir bpPlanIn bpLayers).2 = true ↔
        ((∃ err, files.build = .error err ∧ err.IsNotExist = false) ∨
         failed (c.ValidateBOM b.API b.bpFromBpInfo files.buildTOML.BOM) = true ∨
         validateUnmet files.buildTOML.Unmet bpPlanIn ≠ none ∨
         failed (c.processBOMFiles b bpLayersDir b.bpFromBpInfo bpLayers) = true ∨
         (∃ err, files.launch = .error err ∧ err.IsNotExist = false) ∨
         (∃ launchTOML, files.launch = .ok launchTOML ∧
            (failed (c.ValidateBOM b.API b.bpFromBpInfo launchTOML.BOM) = true ∨
             validateNoMultipleDefaults
               (overrideDefaultForOldBuildpacks launchTOML.Processes b.API).processes
                 ≠ none))))) := by
  constructor
  · intro hapi
    unfold Descriptor.readOutputFiles
    simp only [hapi, if_true]
    cases hplan : files.plan with
    | error err => simp [failed_error]
    | ok bpPlanOut =>
      simp only
      cases hv : c.ValidateBOM b.API b.bpFromBpInfo (c.toBOM bpPlanOut) with
      | error err => simp [failed_error, hv]
      | ok bom =>
        simp only
        cases hbf : c.processBOMFiles b bpLayersDir b.bpFromBpInfo bpLayers with
        | error err => simp [failed_error]
        | ok bomFiles =>
          simp only
          cases hl : files.launch with
          | error err =>
            cases hne : err.IsNotExist <;> simp [failed_error, failed_ok, hne, hv]
          | ok launchTOML =>
            simp only [setLaunchData_old_api b _ launchTOML hapi]
            simp [failed_ok, hv]
  · intro hapi
    unfold Descriptor.readOutputFiles
    simp only [hapi, Bool.false_eq_true, if_false, OutputFiles.buildTOML]
    cases hbuild : files.build with
    | error err =>
      cases hne : err.IsNotExist
      · simp [failed_error, hne]
      · simp only [hne, if_true]
        rw [readOutputFilesFrom05_failed]
        simp [hne]
    | ok buildTOML =>
      simp only
      rw [readOutputFilesFrom05_failed]
      simp

/-- C2, refuted as stated, whatever `ValidateBOM` and the other functions
outside these sources do: at API 0.6, with a `build.toml` that has no BOM
entry and declares the unmet name `x`, no `launch.toml` and an empty plan,
`readOutputFiles` fails although the module produced no BOM entry at all. -/
theorem readOutputFiles_bom_names_counterexample :
    ¬ ∃ c : Collaborators,
      ∀ (b : Descriptor) (files : OutputFiles) (bpLayersDir : String) (bpPlanIn : Plan)
        (bpLayers : List (String × LayerMetadataFile)),
        (failed (b.readOutputFiles c files bpLayersDir bpPlanIn bpLayers).2 = true ↔
          ∃ e ∈ producedBOM c b files, ∀ req ∈ bpPlanIn.Entries, req.Name ≠ e.Name) := by
  rintro ⟨c, h⟩
  have hc := h { API := api06, Buildpack := ⟨"bp", "1", false⟩, Dir := "/cnb/bp" }
    { plan := .error .enoent, build := .ok { BOM := [], Unmet := [{ Name := "x" }] },
      launch := .error .enoent }
    "/layers/bp" { Entries := [] } []
  have hapi : api06.LessThan api05 = false := by decide
  have hnone : ¬ ∃ e ∈ producedBOM c
      { API := api06, Buildpack := ⟨"bp", "1", false⟩, Dir := "/cnb/bp" }
      { plan := .error .enoent, build := .ok { BOM := [], Unmet := [{ Name := "x" }] },
        launch := .error .enoent },
      ∀ req ∈ ({ Entries := [] } : Plan).Entries, req.Name ≠ e.Name := by
    simp [producedBOM, hapi]
  apply hnone
  apply hc.1
  simp only [Descriptor.readOutputFiles, hapi, Bool.false_eq_true, if_false]
  rw [readOutputFilesFrom05_failed]
  exact Or.inr (Or.inl (by decide))

end Buildpack
